import Mathlib

/-!
Verification development for the cosmic-notifications-ng notification daemon.

Shallow embedding of the parts of the code base the checked properties
are about:

* `src/src/state/notifications.rs` — the visible-queue store
  (`sort_visible`, `insert_sorted`, `group_by_app`);
* `src/src/subscriptions/notifications.rs` — the D-Bus `Notify` handler,
  its id counter and the per-sender `RateLimiter`;
* `src/src/app.rs` — the effective-timeout computation of
  `push_notification`;
* `src/cosmic-notifications-config/src/lib.rs` — `NotificationsConfig`;
* `src/cosmic-notifications-util/src/link_detector.rs` — `is_safe_url`;
* `src/cosmic-notifications-util/src/audio.rs` — the sound-path allowlist,
  over an abstract file system;
* `src/cosmic-notifications-util/src/animated_image.rs` — the animated
  image pipeline, over an abstract decoder output;
* `src/cosmic-notifications-util/src/sanitizer.rs` — `strip_html`,
  `sanitize_html` and `decode_entities`, over a model of the external
  `ammonia` cleaning primitive.

Machine integers are modelled as `Nat`/`Int` with explicit wrapping where
the code truncates; `SystemTime`/`Instant` values as `Nat` timestamps.
-/

/-! ## Notification model (`cosmic-notifications-util/src/lib.rs`) -/

/-- Hints, restricted to the variants the store logic inspects
(`Hint::Urgency` through `Notification::urgency`, `Hint::Transient`). -/
inductive Hint where
  | urgency (u : Nat)
  | transient (b : Bool)
  deriving DecidableEq, Repr

/-- `Notification` (fields relevant to the store and timeout logic;
`time : SystemTime` is modelled as a `Nat` timestamp). -/
structure Notification where
  id : Nat
  app_name : String
  summary : String
  body : String
  expire_timeout : Int
  hints : List Hint
  time : Nat
  deriving DecidableEq, Repr

instance : Inhabited Notification := ⟨⟨0, "", "", "", 0, [], 0⟩⟩

/-- `Notification::urgency`: first `Urgency` hint, defaulting to 1. -/
def Notification.urgency (n : Notification) : Nat :=
  (n.hints.findSome? (fun h => match h with
    | .urgency u => some u
    | _ => none)).getD 1

/-- Rust's `Ord::cmp` on integers (and `SystemTime`). -/
def rustCmp (a b : Nat) : Ordering :=
  if a < b then .lt else if a = b then .eq else .gt

/-- The comparator of `NotificationState::insert_sorted`
(`src/src/state/notifications.rs:136`): target `n` against probe `a`,
urgency first, then time. -/
def cmpKey (n a : Notification) : Ordering :=
  match rustCmp n.urgency a.urgency with
  | .eq => rustCmp n.time a.time
  | o => o

/-- The sort key `(urgency, time)` of a notification. -/
def key (n : Notification) : Nat × Nat := (n.urgency, n.time)

/-- Strict lexicographic order on sort keys. -/
def keyLT (p q : Nat × Nat) : Prop :=
  p.1 < q.1 ∨ (p.1 = q.1 ∧ p.2 < q.2)

instance (p q : Nat × Nat) : Decidable (keyLT p q) := by unfold keyLT; infer_instance

/-- The order `insert_sorted` actually maintains: strictly descending
sort keys, i.e. urgency descending and, among equal urgency, received
time descending. -/
def SortedDesc (l : List Notification) : Prop :=
  List.Pairwise (fun a b => keyLT (key b) (key a)) l

instance (l : List Notification) : Decidable (SortedDesc l) := by
  unfold SortedDesc; infer_instance

/-- The order claimed by the spec: urgency descending, received time
ascending among equal urgency. -/
def specOrdered (l : List Notification) : Prop :=
  List.Pairwise
    (fun a b => b.urgency < a.urgency ∨ (a.urgency = b.urgency ∧ a.time ≤ b.time)) l

instance (l : List Notification) : Decidable (specOrdered l) := by
  unfold specOrdered; infer_instance

/-- Result of Rust's `slice::binary_search_by`. -/
inductive SearchResult where
  | found (pos : Nat)
  | notFound (pos : Nat)
  deriving DecidableEq, Repr

/-- The loop of Rust's `slice::binary_search_by`: `left`/`right` bounds,
probe at `mid = left + (right-left)/2`; `Less` moves `left` past `mid`,
`Greater` moves `right` to `mid`, `Equal` returns `Ok(mid)`.  Fuelled;
`fuel = l.length + 1` always suffices since `right - left` strictly
decreases. -/
def binarySearchLoop (f : Notification → Ordering) (l : List Notification) :
    Nat → Nat → Nat → SearchResult
  | left, _, 0 => .notFound left
  | left, right, fuel + 1 =>
    if left < right then
      match f (l.getD (left + (right - left) / 2) default) with
      | .eq => .found (left + (right - left) / 2)
      | .lt => binarySearchLoop f l (left + (right - left) / 2 + 1) right fuel
      | .gt => binarySearchLoop f l left (left + (right - left) / 2) fuel
    else .notFound left

/-- `slice::binary_search_by` over the whole list. -/
def binarySearchBy (l : List Notification) (f : Notification → Ordering) : SearchResult :=
  binarySearchLoop f l 0 l.length (l.length + 1)

/-- `Vec::insert(pos, n)` (for `pos ≤ len`, which the search guarantees). -/
def insertAt : Nat → Notification → List Notification → List Notification
  | 0, n, l => n :: l
  | _ + 1, n, [] => [n]
  | i + 1, n, a :: l => a :: insertAt i n l

/-- `NotificationState::insert_sorted`
(`src/src/state/notifications.rs:133-147`): binary-search with the
target-vs-probe comparator; on a hit the stored entry is overwritten
(`self.cards[pos] = notification`), on a miss the notification is
inserted at the returned position. -/
def insertSorted (cards : List Notification) (n : Notification) : List Notification :=
  match binarySearchBy cards (fun a => cmpKey n a) with
  | .found pos => cards.set pos n
  | .notFound pos => insertAt pos n cards

/-- A sequence of insertions into an initially empty visible queue. -/
def insertAll (ns : List Notification) : List Notification :=
  ns.foldl insertSorted []

/-- The scan phase of `NotificationState::group_by_app`
(`src/src/state/notifications.rs:163-180`): walk the queue counting
consecutive runs of equal `app_name`; entries beyond the
`maxPerApp`-th of a run are moved to the `extra` list.  Returns
`(kept, extra)`. -/
def groupScan (maxPerApp : Nat) :
    List Notification → Nat → String → List Notification × List Notification
  | [], _, _ => ([], [])
  | n :: rest, curCount, curId =>
    let c := if n.app_name = curId then curCount + 1 else 1
    let i := if n.app_name = curId then curId else n.app_name
    let (kept, extra) := groupScan maxPerApp rest c i
    if c > maxPerApp then (kept, n :: extra) else (n :: kept, extra)

/-- The scan with the source's initial state (`cur_count = 0`,
`cur_id = first.app_name`). -/
def groupScanOf (maxPerApp : Nat) (cards : List Notification) :
    List Notification × List Notification :=
  match cards with
  | [] => ([], [])
  | first :: _ => groupScan maxPerApp cards 0 first.app_name

/-- The re-add phase of `group_by_app`
(`src/src/state/notifications.rs:183-189`): each displaced notification
is re-inserted in sorted position when `cards.len() < max_total` and
pushed at the tail otherwise. -/
def readd (maxTotal : Nat) : List Notification → List Notification → List Notification
  | cs, [] => cs
  | cs, n :: rest =>
    readd maxTotal (if cs.length < maxTotal then insertSorted cs n else cs ++ [n]) rest

/-- `NotificationState::group_by_app`
(`src/src/state/notifications.rs:152-192`).  Returns the new visible
queue together with the displaced (`extra_per_app`) notifications. -/
def groupByApp (cards : List Notification) (maxPerApp maxTotal : Nat) :
    List Notification × List Notification :=
  if maxPerApp = 0 then (cards, [])
  else
    let (kept, extra) := groupScanOf maxPerApp cards
    (readd maxTotal kept extra, extra)

/-! ## Rate limiter and `Notify` handler
(`src/src/subscriptions/notifications.rs`) -/

/-- `RateLimiter`: `app_name → (window_start, count_in_window)`.  The
`HashMap` is modelled as an association list with distinct keys;
`Instant` as a `Nat` timestamp in seconds. -/
structure RateLimiter where
  limits : List (String × Nat × Nat)
  deriving DecidableEq, Repr

/-- `RateLimiter::MAX_APPS`. -/
def MAX_APPS : Nat := 1000

/-- `RateLimiter::cleanup`: retain entries whose window has not elapsed
(`now.duration_since(start) <= 60 s`). -/
def RateLimiter.cleanup (rl : RateLimiter) (now : Nat) : RateLimiter :=
  ⟨rl.limits.filter (fun e => now - e.2.1 ≤ 60)⟩

/-- Association-list lookup (`HashMap::get`-like view of `entry`). -/
def lookupApp (l : List (String × Nat × Nat)) (app : String) : Option (Nat × Nat) :=
  (l.find? (fun e => e.1 = app)).map (·.2)

/-- Store `v` under `app`: replace the existing entry or append a new
one (`HashMap::entry(...).or_insert` followed by the updates). -/
def storeApp (l : List (String × Nat × Nat)) (app : String) (v : Nat × Nat) :
    List (String × Nat × Nat) :=
  match l with
  | [] => [(app, v)]
  | e :: rest => if e.1 = app then (app, v) :: rest else e :: storeApp rest app v

/-- `RateLimiter::check_and_update`
(`src/src/subscriptions/notifications.rs:346-389`): force a cleanup when
`MAX_APPS` is reached; reject when still at the cap; otherwise fetch or
create the sender's window entry and apply the window/counter logic
(`MAX_PER_MINUTE = 60`, `WINDOW = 60 s`). -/
def RateLimiter.checkAndUpdate (rl : RateLimiter) (now : Nat) (app : String) :
    Bool × RateLimiter :=
  let rl := if MAX_APPS ≤ rl.limits.length then rl.cleanup now else rl
  if MAX_APPS ≤ rl.limits.length then (false, rl)
  else
    let (start, count) := (lookupApp rl.limits app).getD (now, 0)
    if 60 < now - start then (true, ⟨storeApp rl.limits app (now, 1)⟩)
    else if 60 ≤ count then (false, ⟨storeApp rl.limits app (start, count)⟩)
    else (true, ⟨storeApp rl.limits app (start, count + 1)⟩)

/-- The mutable state of the `Notifications` D-Bus interface object:
the id counter (`NonZeroU64`, initialised to 1 in `Conns::new`) and the
rate limiter. -/
structure Notifications where
  counter : Nat
  limiter : RateLimiter
  deriving DecidableEq, Repr

/-- The interface state as served by `Conns::new`
(`src/src/subscriptions/notifications.rs:50-55`):
`Notifications(tx, NonZeroU64::new(1), Vec::new(), RateLimiter::new())`. -/
def Notifications.init : Notifications := ⟨1, ⟨[]⟩⟩

/-- The id-relevant behaviour of `Notifications::notify`
(`src/src/subscriptions/notifications.rs:460-507`): periodic cleanup
when `counter % 100 == 0`; rate-limit check for `replaces_id == 0` with
sentinel id `1` on rejection; otherwise allocate `id = counter`
(truncated `u64 → u32`) and advance the counter (wrapping to 1 on `u64`
overflow); replacements reuse `replaces_id`.  Returns
`(returned id, new state)`. -/
def Notifications.notify (st : Notifications) (now : Nat) (app_name : String)
    (replaces_id : Nat) : Nat × Notifications :=
  let st := if st.counter % 100 = 0 then { st with limiter := st.limiter.cleanup now } else st
  if replaces_id = 0 then
    let (ok, rl) := st.limiter.checkAndUpdate now app_name
    if ok = false then (1, { st with limiter := rl })
    else
      let id := st.counter
      let counter' := if st.counter = 2 ^ 64 - 1 then 1 else st.counter + 1
      (id % 2 ^ 32, { counter := counter', limiter := rl })
  else (replaces_id, st)

/-- A rate-limit table of `n` fresh entries (distinct app names, window
started at time 0 with count 0). -/
def mkTable (n : Nat) : List (String × Nat × Nat) :=
  (List.range n).map (fun i => (Nat.repr i, (0, 0)))

/-! ## Configuration and effective timeout
(`src/cosmic-notifications-config/src/lib.rs`, `src/src/app.rs`) -/

/-- `NotificationsConfig` (the fields the timeout and grouping logic
reads). -/
structure NotificationsConfig where
  max_notifications : Nat
  max_per_app : Nat
  max_timeout_urgent : Option Nat
  max_timeout_normal : Option Nat
  max_timeout_low : Option Nat
  deriving DecidableEq, Repr

/-- `NotificationsConfig::default`
(`src/cosmic-notifications-config/src/lib.rs:52-68`). -/
def NotificationsConfig.default : NotificationsConfig :=
  ⟨3, 2, none, some 5000, some 3000⟩

/-- `u32::try_from(expire_timeout).unwrap_or(3000)`: the requested
timeout when it fits in a `u32`, else the 3000 ms fallback (so `-1`
becomes 3000). -/
def u32TryFromOr3000 (e : Int) : Nat :=
  if 0 ≤ e ∧ e < 4294967296 then e.toNat else 3000

/-- The per-urgency cap chosen by `push_notification`
(`src/src/app.rs:739-745`). -/
def capFor (cfg : NotificationsConfig) (n : Notification) : Option Nat :=
  if n.urgency = 2 then cfg.max_timeout_urgent
  else if n.urgency = 1 then cfg.max_timeout_normal
  else cfg.max_timeout_low

/-- The effective display timeout computed by
`CosmicNotifications::push_notification` (`src/src/app.rs:738-747`):
`timeout.min(max_timeout)` where `max_timeout` is the per-urgency cap,
defaulting to the converted requested timeout when the cap is absent. -/
def effectiveTimeout (cfg : NotificationsConfig) (n : Notification) : Nat :=
  let timeout := u32TryFromOr3000 n.expire_timeout
  let maxTimeout := (capFor cfg n).getD (u32TryFromOr3000 n.expire_timeout)
  min timeout maxTimeout

/-- Whether `push_notification` schedules an expiry timer
(`src/src/app.rs:749-756`: `if timeout > 0`). -/
def schedulesTimer (cfg : NotificationsConfig) (n : Notification) : Bool :=
  0 < effectiveTimeout cfg n

/-! ## URL safety check (`src/cosmic-notifications-util/src/link_detector.rs`) -/

/-- `str::to_lowercase`, modelled character-wise (ASCII-faithful). -/
def toLowercase (s : String) : List Char :=
  s.data.map Char.toLower

/-- `is_safe_url` (`src/cosmic-notifications-util/src/link_detector.rs:31-36`):
lowercase the URL, then accept exactly the prefixes `https://`,
`http://`, `mailto:`.  `str::starts_with` is modelled as
`List.isPrefixOf` on the characters. -/
def is_safe_url (url : String) : Bool :=
  let url_lower := toLowercase url
  "https://".data.isPrefixOf url_lower ||
  "http://".data.isPrefixOf url_lower ||
  "mailto:".data.isPrefixOf url_lower

/-! ## Audio gate (`src/cosmic-notifications-util/src/audio.rs`)

Paths are modelled as component lists (`Path::starts_with` compares
whole components), the file system and environment as an explicit
record, since `canonicalize`/`exists` are I/O. -/

/-- Abstract file system and environment for the audio gate. -/
structure SoundFs where
  pathExists : List String → Bool
  canonicalize : List String → Option (List String)
  xdgDataHome : Option (List String)
  home : Option (List String)
  activeSounds : Nat

/-- The allowlisted sound directories probed by
`is_allowed_sound_path` (`src/cosmic-notifications-util/src/audio.rs:59-86`):
the two system directories, then `$XDG_DATA_HOME/sounds` when set, then
`$HOME/.local/share/sounds` when set. -/
def allowedDirs (fs : SoundFs) : List (List String) :=
  [["usr", "share", "sounds"], ["usr", "local", "share", "sounds"]]
    ++ (match fs.xdgDataHome with
        | some d => [d ++ ["sounds"]]
        | none => [])
    ++ (match fs.home with
        | some h => [h ++ [".local", "share", "sounds"]]
        | none => [])

/-- `is_allowed_sound_path`
(`src/cosmic-notifications-util/src/audio.rs:47-93`): canonicalise the
path (failure rejects); accept iff the canonical path starts with some
allowlisted directory that itself canonicalises. -/
def is_allowed_sound_path (fs : SoundFs) (p : List String) : Bool :=
  match fs.canonicalize p with
  | none => false
  | some c =>
    (allowedDirs fs).any (fun d =>
      match fs.canonicalize d with
      | some dc => dc.isPrefixOf c
      | none => false)

/-- Observable outcome of `play_sound_file`: which error is returned,
or whether the request is silently dropped at the concurrency cap, or
handed to the decoder thread. -/
inductive PlayOutcome where
  | fileNotFound
  | pathNotAllowed
  | droppedAtCap
  | decoderInvoked
  deriving DecidableEq, Repr

/-- `MAX_CONCURRENT_SOUNDS`. -/
def MAX_CONCURRENT_SOUNDS : Nat := 4

/-- `play_sound_file` (`src/cosmic-notifications-util/src/audio.rs:103-168`):
existence check, then the allowlist check, then the concurrency gate;
only a request that passes all three reaches the decoder. -/
def play_sound_file (fs : SoundFs) (p : List String) : PlayOutcome :=
  if fs.pathExists p = false then .fileNotFound
  else if is_allowed_sound_path fs p = false then .pathNotAllowed
  else if MAX_CONCURRENT_SOUNDS ≤ fs.activeSounds then .droppedAtCap
  else .decoderInvoked

/-! ## Animated images (`src/cosmic-notifications-util/src/animated_image.rs`)

The GIF decoding itself is the external `image` crate; it is abstracted
as the list of frames it yields, so `from_data` is modelled from the
frame stream onward (`decoder.into_frames()` …). -/

/-- `MAX_FRAMES` (`animated_image.rs:4`). -/
def MAX_FRAMES : Nat := 100

/-- `MAX_ANIMATION_DURATION` (`animated_image.rs:7`), in milliseconds. -/
def MAX_ANIMATION_DURATION_MS : Nat := 30000

/-- A frame as yielded by the decoder: RGBA buffer, dimensions and the
delay as the `(numer, denom)` millisecond ratio of
`Delay::numer_denom_ms`. -/
structure RawFrame where
  data : List Nat
  width : Nat
  height : Nat
  delayNumer : Nat
  delayDenom : Nat
  deriving DecidableEq, Repr

/-- `AnimationFrame` (`animated_image.rs:11-16`). -/
structure AnimationFrame where
  data : List Nat
  width : Nat
  height : Nat
  delay_ms : Nat
  deriving DecidableEq, Repr

/-- `AnimatedImage` (`animated_image.rs:20-23`). -/
structure AnimatedImage where
  frames : List AnimationFrame
  total_duration_ms : Nat
  deriving DecidableEq, Repr

/-- `AnimatedImage::new`: total duration is the sum of the delays. -/
def AnimatedImage.new (frames : List AnimationFrame) : AnimatedImage :=
  ⟨frames, (frames.map (·.delay_ms)).sum⟩

/-- The per-frame conversion in `AnimatedImage::from_data`
(`animated_image.rs:65-77`): `delay_ms = ((numer as u64 * 1000) / denom)
as u32`, then `.max(10)`. -/
def decodeFrame (f : RawFrame) : AnimationFrame :=
  ⟨f.data, f.width, f.height, max (f.delayNumer * 1000 / f.delayDenom % 2 ^ 32) 10⟩

/-- `AnimatedImage::from_data` (`animated_image.rs:54-86`) from the
decoded frame stream onward: `.take(MAX_FRAMES)`, per-frame conversion,
and `None` unless more than one frame survives. -/
def AnimatedImage.from_frames (decoded : List RawFrame) : Option AnimatedImage :=
  let frames := (decoded.take MAX_FRAMES).map decodeFrame
  if 1 < frames.length then some (AnimatedImage.new frames) else none

/-! ## Content sanitizer (`src/cosmic-notifications-util/src/sanitizer.rs`)

`sanitize_html` and `strip_html` delegate their cleaning passes to the
external `ammonia` crate (an HTML5 parse → filter → serialize pipeline).
`ammoniaClean` below is a model of that primitive.

Modelled from the spec: the spec describes the passes as whitelist
cleaning (`sanitize(html)`: "whitelist-clean; … all other
tags/attributes/event handlers stripped") over HTML parsing, and the
source's own test comments fix the entity behaviour the model must have
(sanitizer.rs:674-681: a pass over entity-encoded text is the identity —
the parser decodes character references in text and the serializer
re-escapes `&`, `<`, `>`).  `href` scheme filtering and
`rel="noopener noreferrer"` insertion are not modelled: the properties
proved below do not depend on attributes.  `decode_entities`,
`strip_html` and `sanitize_html` themselves are translated from the
source. -/

/-- Serializer escaping of one text character (`&`, `<`, `>`). -/
def escapeChar (c : Char) : List Char :=
  if c = '&' then "&amp;".data
  else if c = '<' then "&lt;".data
  else if c = '>' then "&gt;".data
  else [c]

/-- Consume up to and including the next `>` (end of a dropped tag). -/
def skipToGt : List Char → List Char
  | [] => []
  | '>' :: r => r
  | _ :: r => skipToGt r

/-- Read a tag name (letters and digits), lowercased. -/
def readName : List Char → List Char × List Char
  | [] => ([], [])
  | c :: r =>
    if c.isAlpha || c.isDigit then
      let (n, r') := readName r
      (c.toLower :: n, r')
    else ([], c :: r)

/-- Case-insensitive prefix test (`p` given lowercased). -/
def lowerPrefixOf : List Char → List Char → Bool
  | [], _ => true
  | _ :: _, [] => false
  | a :: p, b :: l => a = b.toLower && lowerPrefixOf p l

/-- Skip the raw-text content of a `script`/`style` element up to and
including its matching close tag. -/
def skipRawText (name : List Char) : List Char → List Char
  | [] => []
  | '<' :: r =>
    match r with
    | '/' :: r2 => if lowerPrefixOf name r2 then skipToGt r2 else skipRawText name r
    | _ => skipRawText name r
  | _ :: r => skipRawText name r

/-- Decimal digit span. -/
def spanDec : List Char → List Char × List Char
  | [] => ([], [])
  | c :: r =>
    if c.isDigit then
      let (d, r') := spanDec r
      (c :: d, r')
    else ([], c :: r)

/-- Hex digit test. -/
def isHexDigitChar (c : Char) : Bool :=
  c.isDigit || ('a' ≤ c && c ≤ 'f') || ('A' ≤ c && c ≤ 'F')

/-- Hex digit span. -/
def spanHex : List Char → List Char × List Char
  | [] => ([], [])
  | c :: r =>
    if isHexDigitChar c then
      let (d, r') := spanHex r
      (c :: d, r')
    else ([], c :: r)

/-- Decimal value of a digit string. -/
def decVal (ds : List Char) : Nat :=
  ds.foldl (fun a c => a * 10 + (c.toNat - 48)) 0

/-- Value of one hex digit. -/
def hexDigitVal (c : Char) : Nat :=
  if c.isDigit then c.toNat - 48
  else if 'a' ≤ c && c ≤ 'f' then c.toNat - 87
  else c.toNat - 55

/-- Hex value of a digit string. -/
def hexVal (ds : List Char) : Nat :=
  ds.foldl (fun a c => a * 16 + hexDigitVal c) 0

/-- Parse one character reference after a `&`: the common named
entities and `&#NN;` / `&#xHH;` numeric ones.  Returns the decoded
character and the rest of the input. -/
def parseEntity (l : List Char) : Option (Char × List Char) :=
  if "lt;".data.isPrefixOf l then some ('<', l.drop 3)
  else if "gt;".data.isPrefixOf l then some ('>', l.drop 3)
  else if "amp;".data.isPrefixOf l then some ('&', l.drop 4)
  else if "quot;".data.isPrefixOf l then some ('"', l.drop 5)
  else if "apos;".data.isPrefixOf l then some ('\'', l.drop 5)
  else if "nbsp;".data.isPrefixOf l then some (Char.ofNat 160, l.drop 5)
  else
    match l with
    | '#' :: 'x' :: r =>
      match spanHex r with
      | (d :: ds, ';' :: r') => some (Char.ofNat (hexVal (d :: ds)), r')
      | _ => none
    | '#' :: 'X' :: r =>
      match spanHex r with
      | (d :: ds, ';' :: r') => some (Char.ofNat (hexVal (d :: ds)), r')
      | _ => none
    | '#' :: r =>
      match spanDec r with
      | (d :: ds, ';' :: r') => some (Char.ofNat (decVal (d :: ds)), r')
      | _ => none
    | _ => none

/-- Elements whose content ammonia removes wholesale
(`clean_content_tags` default: `script`, `style`). -/
def contentDropTags : List (List Char) :=
  ["script".data, "style".data]

/-- One ammonia cleaning pass (model): parse character-wise; real tags
with an allowed name are kept (attributes dropped), `script`/`style`
elements are dropped with their content, other tags are dropped; text
is entity-decoded by the parser and re-escaped by the serializer.
Fuelled; every step consumes at least one character, so
`fuel = input length + 1` suffices. -/
def cleanAux (allowed : List (List Char)) : Nat → List Char → List Char
  | 0, _ => []
  | _ + 1, [] => []
  | fuel + 1, c :: rest =>
    if c = '<' then
      match rest with
      | [] => escapeChar '<'
      | d :: rest2 =>
        if d.isAlpha then
          let (name, afterName) := readName (d :: rest2)
          if name ∈ contentDropTags then
            cleanAux allowed fuel (skipRawText name (skipToGt afterName))
          else if name ∈ allowed then
            ('<' :: name ++ ['>']) ++ cleanAux allowed fuel (skipToGt afterName)
          else cleanAux allowed fuel (skipToGt afterName)
        else if d = '/' then
          let (name, afterName) := readName rest2
          if name ∈ allowed then
            ('<' :: '/' :: (name ++ ['>'])) ++ cleanAux allowed fuel (skipToGt afterName)
          else cleanAux allowed fuel (skipToGt afterName)
        else if d = '!' || d = '?' then
          cleanAux allowed fuel (skipToGt rest)
        else escapeChar '<' ++ cleanAux allowed fuel rest
    else if c = '&' then
      match parseEntity rest with
      | some (ch, rest') => escapeChar ch ++ cleanAux allowed fuel rest'
      | none => escapeChar '&' ++ cleanAux allowed fuel rest
    else escapeChar c ++ cleanAux allowed fuel rest

/-- One ammonia cleaning pass over a character list. -/
def ammoniaClean (allowed : List (List Char)) (s : List Char) : List Char :=
  cleanAux allowed (s.length + 1) s

/-- The tag whitelist of `sanitize_html` (`sanitizer.rs:28-34`). -/
def sanitizeAllowedTags : List (List Char) :=
  ["b".data, "i".data, "u".data, "a".data, "br".data, "p".data]

/-- `sanitize_html` (`sanitizer.rs:27-52`): one whitelist cleaning
pass. -/
def sanitize_html (s : String) : String :=
  ⟨ammoniaClean sanitizeAllowedTags s.data⟩

/-- Rust `str::replace`: replace non-overlapping occurrences of `pat`
left to right.  Fuelled; each step consumes at least one character
(patterns are nonempty). -/
def replaceAll (pat rep : List Char) : Nat → List Char → List Char
  | _, [] => []
  | 0, l => l
  | fuel + 1, c :: rest =>
    if pat.isPrefixOf (c :: rest) then
      rep ++ replaceAll pat rep fuel ((c :: rest).drop pat.length)
    else c :: replaceAll pat rep fuel rest

/-- `str::replace` over a character list. -/
def rustReplace (s : List Char) (pat rep : String) : List Char :=
  replaceAll pat.data rep.data (s.length + 1) s

/-- `decode_entities` (`sanitizer.rs:170-184`): the fixed replacement
chain, `&amp;` last. -/
def decode_entities (s : List Char) : List Char :=
  let s := rustReplace s "&lt;" "<"
  let s := rustReplace s "&gt;" ">"
  let s := rustReplace s "&quot;" "\""
  let s := rustReplace s "&#39;" "'"
  let s := rustReplace s "&#x2F;" "/"
  let s := rustReplace s "&#x27;" "'"
  let s := rustReplace s "&#47;" "/"
  let s := rustReplace s "&#32;" " "
  let s := rustReplace s "&#58;" ":"
  let s := rustReplace s "&#x3A;" ":"
  let s := rustReplace s "&#61;" "="
  rustReplace s "&amp;" "&"

/-- `strip_html` (`sanitizer.rs:82-108`): three no-tags cleaning passes
interleaved with `decode_entities`, ending with a final decode. -/
def strip_html (s : String) : String :=
  let without_real_tags := ammoniaClean [] s.data
  let decoded := decode_entities without_real_tags
  let after_second_pass := ammoniaClean [] decoded
  let decoded_again := decode_entities after_second_pass
  let after_third_pass := ammoniaClean [] decoded_again
  ⟨decode_entities after_third_pass⟩

/-- Whether a character list contains a `<` immediately followed by an
ASCII letter (a surviving tag start). -/
def hasTagStart : List Char → Bool
  | [] => false
  | '<' :: c :: r => c.isAlpha || hasTagStart (c :: r)
  | _ :: r => hasTagStart r

/-! ## Helper lemmas: comparator and binary search -/

theorem keyLT_trans {a b c : Nat × Nat} (h1 : keyLT a b) (h2 : keyLT b c) : keyLT a c := by
  unfold keyLT at h1 h2 ⊢; omega

theorem rustCmp_eq_iff {a b : Nat} : rustCmp a b = .eq ↔ a = b := by
  unfold rustCmp
  split_ifs with h1 h2 <;> simp <;> omega

theorem rustCmp_lt_iff {a b : Nat} : rustCmp a b = .lt ↔ a < b := by
  unfold rustCmp
  split_ifs with h1 h2 <;> simp <;> omega

theorem rustCmp_gt_iff {a b : Nat} : rustCmp a b = .gt ↔ b < a := by
  unfold rustCmp
  split_ifs with h1 h2 <;> simp <;> omega

theorem cmpKey_eq_iff {n a : Notification} : cmpKey n a = .eq ↔ key n = key a := by
  unfold cmpKey key
  rcases h : rustCmp n.urgency a.urgency with _ | _ | _
  · simp only []
    constructor
    · intro h'
      have := rustCmp_lt_iff.mp h
      simp at h'
    · intro h'
      have h1 : n.urgency = a.urgency := (Prod.mk.injEq _ _ _ _ ▸ h').1
      have := rustCmp_lt_iff.mp h
      omega
  · simp only []
    rw [rustCmp_eq_iff]
    have h1 := rustCmp_eq_iff.mp h
    constructor
    · intro h2; simp [h1, h2]
    · intro h2
      exact (Prod.mk.injEq _ _ _ _ ▸ h2).2
  · simp only []
    constructor
    · intro h'; simp at h'
    · intro h'
      have h1 : n.urgency = a.urgency := (Prod.mk.injEq _ _ _ _ ▸ h').1
      have := rustCmp_gt_iff.mp h
      omega

theorem cmpKey_lt_iff {n a : Notification} : cmpKey n a = .lt ↔ keyLT (key n) (key a) := by
  unfold cmpKey key keyLT
  rcases h : rustCmp n.urgency a.urgency with _ | _ | _
  · simp only []
    have := rustCmp_lt_iff.mp h
    simp [rustCmp_lt_iff]
    omega
  · simp only []
    have := rustCmp_eq_iff.mp h
    simp [rustCmp_lt_iff]
    omega
  · simp only []
    have := rustCmp_gt_iff.mp h
    simp [rustCmp_lt_iff]
    omega

theorem cmpKey_gt_iff {n a : Notification} : cmpKey n a = .gt ↔ keyLT (key a) (key n) := by
  unfold cmpKey key keyLT
  rcases h : rustCmp n.urgency a.urgency with _ | _ | _
  · simp only []
    have := rustCmp_lt_iff.mp h
    simp
    omega
  · simp only []
    have := rustCmp_eq_iff.mp h
    simp [rustCmp_gt_iff]
    omega
  · simp only []
    have := rustCmp_gt_iff.mp h
    simp
    omega

theorem sortedDesc_getD {l : List Notification} (hs : SortedDesc l) {i j : Nat}
    (hij : i < j) (hj : j < l.length) :
    keyLT (key (l.getD j default)) (key (l.getD i default)) := by
  have hi : i < l.length := Nat.lt_trans hij hj
  rw [List.getD_eq_getElem l default hj, List.getD_eq_getElem l default hi]
  exact List.pairwise_iff_getElem.mp hs i j hi hj hij

theorem binarySearchLoop_found {f : Notification → Ordering} {l : List Notification} :
    ∀ (fuel left right pos : Nat), right ≤ l.length →
      binarySearchLoop f l left right fuel = .found pos →
      pos < l.length ∧ f (l.getD pos default) = .eq := by
  intro fuel
  induction fuel with
  | zero =>
    intro left right pos _ h
    simp [binarySearchLoop] at h
  | succ fuel ih =>
    intro left right pos hr h
    unfold binarySearchLoop at h
    split at h
    case isTrue hlr =>
      rcases hf : f (l.getD (left + (right - left) / 2) default) with _ | _ | _ <;>
        rw [hf] at h
      · exact ih _ _ _ hr h
      · cases h
        exact ⟨by omega, hf⟩
      · exact ih _ _ _ (by omega) h
    case isFalse => simp at h

theorem binarySearchLoop_notFound_spec {n : Notification} {l : List Notification}
    (hs : SortedDesc l) :
    ∀ (fuel left right pos : Nat), right - left ≤ fuel → left ≤ right → right ≤ l.length →
      (∀ j, j < l.length → j < left → keyLT (key n) (key (l.getD j default))) →
      (∀ j, j < l.length → right ≤ j → keyLT (key (l.getD j default)) (key n)) →
      binarySearchLoop (fun a => cmpKey n a) l left right fuel = .notFound pos →
      pos ≤ l.length ∧
      (∀ j, j < l.length → j < pos → keyLT (key n) (key (l.getD j default))) ∧
      (∀ j, j < l.length → pos ≤ j → keyLT (key (l.getD j default)) (key n)) := by
  intro fuel
  induction fuel with
  | zero =>
    intro left right pos hf hlr hr hL hR h
    simp only [binarySearchLoop] at h
    cases h
    have hEq : left = right := by omega
    refine ⟨by omega, hL, ?_⟩
    intro j hj hpj
    exact hR j hj (hEq ▸ hpj)
  | succ fuel ih =>
    intro left right pos hf hlr hr hL hR h
    unfold binarySearchLoop at h
    split at h
    case isTrue hltr =>
      rcases hcmp : cmpKey n (l.getD (left + (right - left) / 2) default) with _ | _ | _ <;>
        simp only [hcmp] at h
      · -- Less: target below the probe's key position, search right half
        have hmidlt : left + (right - left) / 2 < right := by omega
        have hmidb : left + (right - left) / 2 < l.length := by omega
        have hkey := cmpKey_lt_iff.mp hcmp
        refine ih _ _ _ (by omega) (by omega) hr ?_ hR h
        intro j hj hjm
        rcases Nat.lt_or_ge j (left + (right - left) / 2) with hjlt | hjge
        · exact keyLT_trans hkey (sortedDesc_getD hs hjlt hmidb)
        · have : j = left + (right - left) / 2 := by omega
          rw [this]
          exact hkey
      · -- Equal: the loop returns `found`, contradiction
        simp at h
      · -- Greater: target above the probe's key position, search left half
        have hmidlt : left + (right - left) / 2 < right := by omega
        have hmidb : left + (right - left) / 2 < l.length := by omega
        have hkey := cmpKey_gt_iff.mp hcmp
        refine ih _ _ _ (by omega) (by omega) (by omega) hL ?_ h
        intro j hj hjm
        rcases Nat.lt_or_ge (left + (right - left) / 2) j with hjgt | hjle
        · exact keyLT_trans (sortedDesc_getD hs hjgt hj) hkey
        · have : j = left + (right - left) / 2 := by omega
          rw [this]
          exact hkey
    case isFalse hnlt =>
      cases h
      have hEq : left = right := by omega
      refine ⟨by omega, hL, ?_⟩
      intro j hj hpj
      exact hR j hj (hEq ▸ hpj)

theorem set_sortedDesc {l : List Notification} {pos : Nat} {n : Notification}
    (hpos : pos < l.length) (hk : key (l.getD pos default) = key n) (hs : SortedDesc l) :
    SortedDesc (l.set pos n) := by
  unfold SortedDesc at hs ⊢
  rw [List.pairwise_iff_getElem] at hs ⊢
  intro i j hi hj hij
  rw [List.length_set] at hi hj
  rw [List.getD_eq_getElem l default hpos] at hk
  rw [List.getElem_set, List.getElem_set]
  rcases eq_or_ne pos i with rfl | hpi
  · rw [if_pos rfl, if_neg (by omega)]
    rw [← hk]
    exact hs pos j hi hj hij
  · rw [if_neg hpi]
    rcases eq_or_ne pos j with rfl | hpj
    · rw [if_pos rfl, ← hk]
      exact hs i pos hi hj hij
    · rw [if_neg hpj]
      exact hs i j hi hj hij

theorem mem_insertAt {n b : Notification} :
    ∀ {pos : Nat} {l : List Notification}, b ∈ insertAt pos n l → b = n ∨ b ∈ l := by
  intro pos l
  induction l generalizing pos with
  | nil =>
    cases pos <;> simp [insertAt]
  | cons a l ih =>
    cases pos with
    | zero =>
      simp only [insertAt, List.mem_cons]
      tauto
    | succ i =>
      simp only [insertAt, List.mem_cons]
      rintro (rfl | h)
      · right; left; rfl
      · rcases ih h with h' | h'
        · left; exact h'
        · right; right; exact h'

theorem insertAt_sortedDesc {n : Notification} :
    ∀ (pos : Nat) (l : List Notification), SortedDesc l →
      (∀ j, j < l.length → j < pos → keyLT (key n) (key (l.getD j default))) →
      (∀ j, j < l.length → pos ≤ j → keyLT (key (l.getD j default)) (key n)) →
      SortedDesc (insertAt pos n l) := by
  intro pos l
  induction l generalizing pos with
  | nil =>
    intro _ _ _
    cases pos <;> (unfold insertAt SortedDesc; simp)
  | cons a l ih =>
    intro hs hL hR
    obtain ⟨ha, hl⟩ := List.pairwise_cons.mp hs
    cases pos with
    | zero =>
      unfold insertAt SortedDesc
      refine List.Pairwise.cons ?_ hs
      intro b hb
      obtain ⟨j, hj, rfl⟩ := List.mem_iff_getElem.mp hb
      have := hR j hj (Nat.zero_le _)
      rwa [List.getD_eq_getElem _ default hj] at this
    | succ i =>
      show SortedDesc (a :: insertAt i n l)
      unfold SortedDesc
      refine List.Pairwise.cons ?_ ?_
      · intro b hb
        rcases mem_insertAt hb with rfl | hbl
        · have := hL 0 (by simp) (by omega)
          simpa [List.getD_cons_zero] using this
        · exact ha b hbl
      · refine ih i hl ?_ ?_
        · intro j hj hji
          have := hL (j + 1) (by simp; omega) (by omega)
          rwa [List.getD_cons_succ] at this
        · intro j hj hij
          have := hR (j + 1) (by simp; omega) (by omega)
          rwa [List.getD_cons_succ] at this

theorem insertSorted_sortedDesc {cards : List Notification} (n : Notification)
    (hs : SortedDesc cards) : SortedDesc (insertSorted cards n) := by
  unfold insertSorted binarySearchBy
  rcases h : binarySearchLoop (fun a => cmpKey n a) cards 0 cards.length (cards.length + 1) with
    pos | pos
  · obtain ⟨hpos, heq⟩ := binarySearchLoop_found _ _ _ _ le_rfl h
    exact set_sortedDesc hpos (cmpKey_eq_iff.mp heq).symm hs
  · obtain ⟨hle, hLb, hRb⟩ :=
      binarySearchLoop_notFound_spec hs _ 0 _ pos (by omega) (by omega) le_rfl
        (by omega) (fun j hj hrj => by omega) h
    exact insertAt_sortedDesc pos cards hs hLb hRb

theorem insertAll_sortedDesc_aux :
    ∀ (ns : List Notification) (acc : List Notification), SortedDesc acc →
      SortedDesc (List.foldl insertSorted acc ns) := by
  intro ns
  induction ns with
  | nil => intro acc h; exact h
  | cons n ns ih =>
    intro acc h
    exact ih _ (insertSorted_sortedDesc n h)

/-! ## Helper lemmas: re-add phase, rate limiter, URLs, sanitizer -/

theorem readd_of_ge {m : Nat} :
    ∀ (extras cs : List Notification), m ≤ cs.length → readd m cs extras = cs ++ extras := by
  intro extras
  induction extras with
  | nil => intro cs _; simp [readd]
  | cons n rest ih =>
    intro cs h
    unfold readd
    rw [if_neg (by omega)]
    rw [ih (cs ++ [n]) (by simp; omega)]
    simp

theorem mkTable_length (n : Nat) : (mkTable n).length = n := by
  simp [mkTable]

theorem mkTable_cleanup_zero (n : Nat) :
    RateLimiter.cleanup ⟨mkTable n⟩ 0 = ⟨mkTable n⟩ := by
  unfold RateLimiter.cleanup
  congr 1
  rw [List.filter_eq_self]
  intro a ha
  simp only [mkTable, List.mem_map, List.mem_range] at ha
  obtain ⟨i, _, rfl⟩ := ha
  simp

theorem checkAndUpdate_stillFull_rejects (rl : RateLimiter) (now : Nat) (app : String)
    (h1 : MAX_APPS ≤ rl.limits.length) (h2 : MAX_APPS ≤ ((rl.cleanup now).limits.length)) :
    (rl.checkAndUpdate now app).fst = false := by
  unfold RateLimiter.checkAndUpdate
  rw [if_pos h1, if_pos h2]

theorem isPrefixOf_lower_append (pre q p : String) (hq : toLowercase q = pre.data) :
    pre.data.isPrefixOf (toLowercase (q ++ p)) = true := by
  unfold toLowercase at hq ⊢
  rw [String.data_append, List.map_append, hq, List.isPrefixOf_iff_prefix]
  exact List.prefix_append _ _

theorem escapeChar_no_lt (c : Char) : '<' ∉ escapeChar c := by
  unfold escapeChar
  split_ifs with h1 h2 h3
  · decide
  · decide
  · decide
  · intro hm
    simp only [List.mem_singleton] at hm
    exact h2 hm.symm

theorem cleanAux_none_no_lt : ∀ (fuel : Nat) (l : List Char), '<' ∉ cleanAux [] fuel l := by
  intro fuel
  induction fuel with
  | zero => intro l; simp [cleanAux]
  | succ fuel ih =>
    intro l
    match l with
    | [] => simp [cleanAux]
    | c :: rest =>
      unfold cleanAux
      repeat' split
      all_goals
        first
        | exact ih _
        | exact escapeChar_no_lt _
        | exact absurd (by assumption) (List.not_mem_nil _)
        | (intro hm
           rcases List.mem_append.mp hm with hm1 | hm2
           · exact escapeChar_no_lt _ hm1
           · exact ih _ hm2)

/-! ## Claim theorems -/

set_option maxRecDepth 1000000

/-- C1 (amended): every cleaning pass escapes `<` in text and keeps no
tag when none is allowed, so the intermediate result after the third
`strip_html` pass contains no `<` at all; the final `decode_entities`
can reintroduce literal tag text for triple-entity-encoded input:
`strip(sanitize("&amp;amp;lt;b&amp;amp;gt;hi")) = "<b>hi"`. -/
theorem C1_strip_sanitize_tag_leak :
    (∀ s : List Char, '<' ∉ ammoniaClean [] s) ∧
    strip_html (sanitize_html "&amp;amp;lt;b&amp;amp;gt;hi") = "<b>hi" :=
  ⟨fun s => cleanAux_none_no_lt _ s, by decide⟩

/-- C1 counterexample: the triple-entity-encoded input
`"&amp;amp;lt;b&amp;amp;gt;hi"` survives sanitize-then-strip as literal
`"<b>hi"`, which contains `<` immediately followed by an ASCII
letter. -/
theorem C1_counterexample :
    hasTagStart (strip_html (sanitize_html "&amp;amp;lt;b&amp;amp;gt;hi")).data = true := by
  decide

/-- C2 (code_bug): the id counter is initialised to 1 and the first
accepted `Notify` with `replaces_id == 0` returns id 1 — the very value
used as the rate-limit rejection sentinel — rather than the claimed
id 2. -/
theorem C2_first_accepted_id_is_sentinel :
    (Notifications.init.notify 0 "t" 0).fst = 1 ∧
    (Notifications.init.notify 0 "t" 0).fst ≠ 2 := by
  decide

/-- C3 counterexample: two equal-urgency notifications inserted with
times 10 then 20 end up newest-first (`[time 20, time 10]`), violating
the claimed received-time-ascending order among equal urgency. -/
theorem C3_counterexample :
    ¬ specOrdered (insertAll
      [⟨1, "a", "s", "b", 0, [], 10⟩, ⟨2, "a", "s", "b", 0, [], 20⟩]) := by
  decide

/-- C3 (amended): for every sequence of insertions into the visible
queue via `insert_sorted`, the queue is strictly sorted by urgency
descending with received time DESCENDING (newest first) among equal
urgency. -/
theorem C3_insertAll_sortedDesc (ns : List Notification) : SortedDesc (insertAll ns) :=
  insertAll_sortedDesc_aux ns [] List.Pairwise.nil

/-- C4 counterexample: with `max_per_app = 2` and `max_notifications = 2`,
three same-app notifications leave `group_by_app` with a queue of
length 3 — the displaced entry is appended even though the queue is
already at the cap, so enforcement grows the queue past
`max_notifications`. -/
theorem C4_counterexample :
    (groupByApp [⟨3, "a", "s", "b", 0, [], 30⟩, ⟨2, "a", "s", "b", 0, [], 20⟩,
        ⟨1, "a", "s", "b", 0, [], 10⟩] 2 2).fst.length = 3 ∧
    ¬ ((groupByApp [⟨3, "a", "s", "b", 0, [], 30⟩, ⟨2, "a", "s", "b", 0, [], 20⟩,
        ⟨1, "a", "s", "b", 0, [], 10⟩] 2 2).fst.length ≤ 2) := by
  decide

/-- C4 (amended): a displaced notification is re-inserted in sorted
position only while the queue is below `max_notifications`; otherwise it
is appended at the tail rather than left out — when the scan already
keeps at least `max_notifications` entries, the final queue is exactly
`kept ++ displaced`. -/
theorem C4_displaced_appended (cards kept extra : List Notification) (k m : Nat)
    (hk : k ≠ 0) (hscan : groupScanOf k cards = (kept, extra)) (hm : m ≤ kept.length) :
    (groupByApp cards k m).fst = kept ++ extra := by
  unfold groupByApp
  rw [if_neg hk]
  simp only [hscan]
  exact readd_of_ge extra kept hm

/-- C4 witness: the amended claim at the counterexample's input. -/
theorem C4_witness :
    (2 : Nat) ≠ 0 ∧
    groupScanOf 2 [⟨3, "a", "s", "b", 0, [], 30⟩, ⟨2, "a", "s", "b", 0, [], 20⟩,
        ⟨1, "a", "s", "b", 0, [], 10⟩] =
      ([⟨3, "a", "s", "b", 0, [], 30⟩, ⟨2, "a", "s", "b", 0, [], 20⟩],
        [⟨1, "a", "s", "b", 0, [], 10⟩]) ∧
    (2 : Nat) ≤ 2 ∧
    (groupByApp [⟨3, "a", "s", "b", 0, [], 30⟩, ⟨2, "a", "s", "b", 0, [], 20⟩,
        ⟨1, "a", "s", "b", 0, [], 10⟩] 2 2).fst =
      [⟨3, "a", "s", "b", 0, [], 30⟩, ⟨2, "a", "s", "b", 0, [], 20⟩] ++
        [⟨1, "a", "s", "b", 0, [], 10⟩] :=
  ⟨by decide, by decide, by decide,
    C4_displaced_appended _ _ _ 2 2 (by decide) (by decide) (by decide)⟩

/-- C5 counterexample: with the table at the 1000-sender cap and a
cleanup that frees nothing (all windows fresh), a notification from app
`"0"` is rejected even though `"0"` is already tracked with count 0 —
not only unknown apps are rejected. -/
theorem C5_counterexample :
    (RateLimiter.checkAndUpdate ⟨mkTable 1000⟩ 0 "0").fst = false ∧
    ("0", (0 : Nat), (0 : Nat)) ∈ mkTable 1000 := by
  constructor
  · refine checkAndUpdate_stillFull_rejects _ 0 "0" ?_ ?_
    · show MAX_APPS ≤ (mkTable 1000).length
      rw [mkTable_length]
      decide
    · rw [mkTable_cleanup_zero]
      show MAX_APPS ≤ (mkTable 1000).length
      rw [mkTable_length]
      decide
  · unfold mkTable
    exact List.mem_map.mpr ⟨0, List.mem_range.mpr (by omega), rfl⟩

/-- C5 (amended): when the rate-limit table is at the 1000-sender cap
and the forced cleanup pass leaves it at the cap, EVERY notification is
rejected — from tracked and untracked senders alike. -/
theorem C5_full_table_rejects_all (rl : RateLimiter) (now : Nat) (app : String)
    (h1 : MAX_APPS ≤ rl.limits.length) (h2 : MAX_APPS ≤ ((rl.cleanup now).limits.length)) :
    (rl.checkAndUpdate now app).fst = false :=
  checkAndUpdate_stillFull_rejects rl now app h1 h2

/-- C5 witness: the amended claim at a concrete full table. -/
theorem C5_witness :
    MAX_APPS ≤ (RateLimiter.mk (mkTable 1000)).limits.length ∧
    MAX_APPS ≤ ((RateLimiter.mk (mkTable 1000)).cleanup 0).limits.length ∧
    ((RateLimiter.mk (mkTable 1000)).checkAndUpdate 0 "untracked").fst = false := by
  have h1 : MAX_APPS ≤ (RateLimiter.mk (mkTable 1000)).limits.length := by
    show MAX_APPS ≤ (mkTable 1000).length
    rw [mkTable_length]
    decide
  have h2 : MAX_APPS ≤ ((RateLimiter.mk (mkTable 1000)).cleanup 0).limits.length := by
    rw [mkTable_cleanup_zero]
    exact h1
  exact ⟨h1, h2, C5_full_table_rejects_all _ 0 "untracked" h1 h2⟩

/-- C6 counterexample: under the default configuration an urgency-2
notification with `expire_timeout = -1` gets an effective timeout of
3000 ms and an expiry timer IS scheduled (the claim says it never
expires); and with the normal-urgency cap of 5000 ms present, `-1`
yields 3000 ms, not the cap verbatim. -/
theorem C6_counterexample :
    schedulesTimer NotificationsConfig.default ⟨1, "x", "s", "b", -1, [.urgency 2], 0⟩ = true ∧
    effectiveTimeout NotificationsConfig.default ⟨1, "x", "s", "b", -1, [.urgency 2], 0⟩ = 3000 ∧
    capFor NotificationsConfig.default ⟨2, "x", "s", "b", -1, [.urgency 1], 0⟩ = some 5000 ∧
    effectiveTimeout NotificationsConfig.default ⟨2, "x", "s", "b", -1, [.urgency 1], 0⟩ = 3000 := by
  decide

/-- C6 (amended): the effective timeout is
`min t (cap.getD t)` where `t` is the requested timeout when it fits in
a `u32` and the 3000 ms fallback otherwise (so `-1` maps to 3000):
(a) a representable non-negative request with a cap present yields
`min request cap`; (b) a request of 0 is persistent (no timer);
(c) `-1` with a cap present yields `min 3000 cap`, not the cap
verbatim; (d) under the default configuration an urgency-2 notification
with `-1` gets 3000 ms and a timer is scheduled. -/
theorem C6_effective_timeout :
    (∀ (cfg : NotificationsConfig) (n : Notification) (c : Nat),
      0 ≤ n.expire_timeout → n.expire_timeout < 4294967296 → capFor cfg n = some c →
      effectiveTimeout cfg n = min n.expire_timeout.toNat c) ∧
    (∀ (cfg : NotificationsConfig) (n : Notification),
      n.expire_timeout = 0 → schedulesTimer cfg n = false) ∧
    (∀ (cfg : NotificationsConfig) (n : Notification) (c : Nat),
      n.expire_timeout = -1 → capFor cfg n = some c →
      effectiveTimeout cfg n = min 3000 c) ∧
    (∀ n : Notification, n.expire_timeout = -1 → n.urgency = 2 →
      effectiveTimeout NotificationsConfig.default n = 3000 ∧
      schedulesTimer NotificationsConfig.default n = true) := by
  refine ⟨?_, ?_, ?_, ?_⟩
  · intro cfg n c h0 h1 hcap
    unfold effectiveTimeout u32TryFromOr3000
    rw [if_pos ⟨h0, h1⟩, hcap]
    rfl
  · intro cfg n h
    unfold schedulesTimer effectiveTimeout u32TryFromOr3000
    rw [h]
    simp
  · intro cfg n c h hcap
    unfold effectiveTimeout u32TryFromOr3000
    rw [h, hcap]
    simp
  · intro n h hu
    have hcap : capFor NotificationsConfig.default n = none := by
      unfold capFor
      rw [hu]
      rfl
    constructor
    · unfold effectiveTimeout u32TryFromOr3000
      rw [h, hcap]
      simp
    · unfold schedulesTimer effectiveTimeout u32TryFromOr3000
      rw [h, hcap]
      simp

/-- C6 witness: the amended claim at concrete inputs: a 7000 ms request
capped by the default normal cap 5000; a 0 request persistent; `-1`
with the normal cap giving 3000; and the default-config urgent `-1`
case. -/
theorem C6_witness :
    (0 ≤ (7000 : Int) ∧ (7000 : Int) < 4294967296 ∧
      capFor NotificationsConfig.default ⟨1, "x", "s", "b", 7000, [], 0⟩ = some 5000 ∧
      effectiveTimeout NotificationsConfig.default ⟨1, "x", "s", "b", 7000, [], 0⟩ =
        min (Int.toNat 7000) 5000) ∧
    schedulesTimer NotificationsConfig.default ⟨1, "x", "s", "b", 0, [], 0⟩ = false ∧
    effectiveTimeout NotificationsConfig.default ⟨1, "x", "s", "b", -1, [], 0⟩ = min 3000 5000 ∧
    (effectiveTimeout NotificationsConfig.default ⟨1, "x", "s", "b", -1, [.urgency 2], 0⟩ = 3000 ∧
      schedulesTimer NotificationsConfig.default ⟨1, "x", "s", "b", -1, [.urgency 2], 0⟩ = true) := by
  refine ⟨⟨by decide, by decide, by decide, ?_⟩, ?_, ?_, ?_⟩
  · exact (C6_effective_timeout.1 NotificationsConfig.default _ 5000 (by decide) (by decide)
      (by decide)).trans (by decide)
  · exact C6_effective_timeout.2.1 NotificationsConfig.default _ (by decide)
  · exact C6_effective_timeout.2.2.1 NotificationsConfig.default _ 5000 (by decide) (by decide)
  · exact C6_effective_timeout.2.2.2 _ (by decide) (by decide)

/-- C7 counterexample: `is_safe_url` rejects a scheme-less relative URL
(the claim says it accepts them) and rejects a URL with leading
whitespace (the claim says the input is trimmed first). -/
theorem C7_counterexample :
    is_safe_url "docs/page.html" = false ∧ is_safe_url " https://a.com" = false := by
  decide

/-- C7 (amended): `is_safe_url` lowercases (but does not trim) and
accepts exactly the URLs whose lowercasing starts with `https://`,
`http://` or `mailto:` — in any character case — while `javascript:`,
`vbscript:`, `file:`, `data:` URLs, scheme-less relative URLs and URLs
with leading whitespace are rejected. -/
theorem C7_is_safe_url :
    (∀ q p : String, toLowercase q = "https://".data → is_safe_url (q ++ p) = true) ∧
    (∀ q p : String, toLowercase q = "http://".data → is_safe_url (q ++ p) = true) ∧
    (∀ q p : String, toLowercase q = "mailto:".data → is_safe_url (q ++ p) = true) ∧
    is_safe_url "javascript:alert(1)" = false ∧
    is_safe_url "vbscript:msgbox(1)" = false ∧
    is_safe_url "file:///etc/passwd" = false ∧
    is_safe_url "data:text/html,x" = false ∧
    is_safe_url "docs/page.html" = false ∧
    is_safe_url " https://a.com" = false := by
  refine ⟨?_, ?_, ?_, by decide, by decide, by decide, by decide, by decide, by decide⟩
  · intro q p hq
    unfold is_safe_url
    simp [isPrefixOf_lower_append "https://" q p hq]
  · intro q p hq
    unfold is_safe_url
    simp [isPrefixOf_lower_append "http://" q p hq]
  · intro q p hq
    unfold is_safe_url
    simp [isPrefixOf_lower_append "mailto:" q p hq]

/-- C7 witness: the amended claim at a mixed-case concrete URL. -/
theorem C7_witness :
    toLowercase "HtTpS://" = "https://".data ∧
    is_safe_url ("HtTpS://" ++ "Example.com/Path") = true :=
  ⟨by decide, C7_is_safe_url.1 "HtTpS://" "Example.com/Path" (by decide)⟩

/-- C8 (confirmed): `play_sound_file` on an existing path whose
canonical form lies under none of the allowlisted sound directories
(each itself canonicalised) returns `PathNotAllowed` and never reaches
the decoder; a non-existent path returns `FileNotFound` — the existence
check precedes the allowlist check. -/
theorem C8_path_gate (fs : SoundFs) (p c : List String)
    (hex : fs.pathExists p = true)
    (hc : fs.canonicalize p = some c)
    (hout : ∀ d ∈ allowedDirs fs, ∀ dc, fs.canonicalize d = some dc → dc.isPrefixOf c = false) :
    play_sound_file fs p = .pathNotAllowed ∧
    play_sound_file fs p ≠ .decoderInvoked ∧
    (∀ q, fs.pathExists q = false → play_sound_file fs q = .fileNotFound) := by
  have hallow : is_allowed_sound_path fs p = false := by
    unfold is_allowed_sound_path
    rw [hc]
    rw [List.any_eq_false]
    intro d hd
    rcases hcd : fs.canonicalize d with _ | dc
    · simp
    · simp [hout d hd dc hcd]
  have hmain : play_sound_file fs p = .pathNotAllowed := by
    unfold play_sound_file
    rw [hex, hallow]
    simp
  refine ⟨hmain, ?_, ?_⟩
  · rw [hmain]
    decide
  · intro q hq
    unfold play_sound_file
    rw [hq]
    simp

/-- C8 witness: a concrete file system in which
`/usr/share/sounds/../../etc/passwd` exists and canonicalises to
`/etc/passwd`, outside both allowlisted system directories. -/
theorem C8_witness :
    (SoundFs.mk
      (fun q => decide (q = ["usr", "share", "sounds", "..", "..", "etc", "passwd"]))
      (fun q =>
        if q = ["usr", "share", "sounds", "..", "..", "etc", "passwd"] then
          some ["etc", "passwd"]
        else if q = ["usr", "share", "sounds"] then some ["usr", "share", "sounds"]
        else if q = ["usr", "local", "share", "sounds"] then
          some ["usr", "local", "share", "sounds"]
        else none)
      none none 0).pathExists ["usr", "share", "sounds", "..", "..", "etc", "passwd"] = true ∧
    play_sound_file
      (SoundFs.mk
        (fun q => decide (q = ["usr", "share", "sounds", "..", "..", "etc", "passwd"]))
        (fun q =>
          if q = ["usr", "share", "sounds", "..", "..", "etc", "passwd"] then
            some ["etc", "passwd"]
          else if q = ["usr", "share", "sounds"] then some ["usr", "share", "sounds"]
          else if q = ["usr", "local", "share", "sounds"] then
            some ["usr", "local", "share", "sounds"]
          else none)
        none none 0) ["usr", "share", "sounds", "..", "..", "etc", "passwd"] =
      .pathNotAllowed := by
  refine ⟨by decide, ?_⟩
  refine (C8_path_gate _ _ ["etc", "passwd"] (by decide) (by decide) ?_).1
  intro d hd dc hdc
  simp only [allowedDirs, List.mem_append, List.mem_cons, List.not_mem_nil, or_false] at hd
  rcases hd with rfl | rfl
  · have : dc = ["usr", "share", "sounds"] := by
      simpa using hdc.symm
    rw [this]
    decide
  · have : dc = ["usr", "local", "share", "sounds"] := by
      simpa using hdc.symm
    rw [this]
    decide

/-- C9 (code_bug): the animated-image pipeline caps frames at 100 and
delays at ≥ 10 ms but never enforces `MAX_ANIMATION_DURATION`: a
two-frame decoded stream with 30000 ms frame delays yields an
`AnimatedImage` whose total duration (60 000 000 ms after the
`*1000` conversion) far exceeds the 30 s bound. -/
theorem C9_duration_cap_not_enforced :
    AnimatedImage.from_frames [⟨[], 1, 1, 30000, 1⟩, ⟨[], 1, 1, 30000, 1⟩] =
      some ⟨[⟨[], 1, 1, 30000000⟩, ⟨[], 1, 1, 30000000⟩], 60000000⟩ ∧
    ¬ ((60000000 : Nat) ≤ MAX_ANIMATION_DURATION_MS) := by
  decide

/-- C10 (confirmed): when the binary search of `insert_sorted` hits
(`Ok(pos)`), the stored notification at `pos` — whose sort key equals
the new notification's key — is overwritten in place: the result is
`cards.set pos n`, the queue length does not grow, and nothing ties the
two notifications' ids. -/
theorem C10_hit_overwrites (cards : List Notification) (n : Notification) (pos : Nat)
    (h : binarySearchBy cards (fun a => cmpKey n a) = .found pos) :
    insertSorted cards n = cards.set pos n ∧
    (insertSorted cards n).length = cards.length ∧
    pos < cards.length ∧ key (cards.getD pos default) = key n := by
  have h' := h
  unfold binarySearchBy at h'
  obtain ⟨hpos, heq⟩ := binarySearchLoop_found _ _ _ _ le_rfl h'
  have hset : insertSorted cards n = cards.set pos n := by
    unfold insertSorted
    rw [h]
  refine ⟨hset, ?_, hpos, (cmpKey_eq_iff.mp heq).symm⟩
  rw [hset, List.length_set]

/-- C10 witness: a stored notification with id 2 and a new notification
with id 7 but the same (urgency, time) key: the hit overwrites in
place. -/
theorem C10_witness :
    binarySearchBy [(⟨2, "a", "x", "y", 5, [], 20⟩ : Notification)]
        (fun a => cmpKey ⟨7, "b", "", "", 0, [], 20⟩ a) = .found 0 ∧
    (insertSorted [(⟨2, "a", "x", "y", 5, [], 20⟩ : Notification)] ⟨7, "b", "", "", 0, [], 20⟩ =
        [(⟨2, "a", "x", "y", 5, [], 20⟩ : Notification)].set 0 ⟨7, "b", "", "", 0, [], 20⟩ ∧
      (insertSorted [(⟨2, "a", "x", "y", 5, [], 20⟩ : Notification)]
          ⟨7, "b", "", "", 0, [], 20⟩).length =
        [(⟨2, "a", "x", "y", 5, [], 20⟩ : Notification)].length ∧
      0 < [(⟨2, "a", "x", "y", 5, [], 20⟩ : Notification)].length ∧
      key ([(⟨2, "a", "x", "y", 5, [], 20⟩ : Notification)].getD 0 default) =
        key ⟨7, "b", "", "", 0, [], 20⟩) :=
  ⟨by decide,
    C10_hit_overwrites [(⟨2, "a", "x", "y", 5, [], 20⟩ : Notification)]
      (⟨7, "b", "", "", 0, [], 20⟩ : Notification) 0 (by decide)⟩
